import Mathlib

/-!
Shallow embedding of the Total-ReClaw memory plugin core: the scoring
functions of src/src/scoring.ts, the capture evaluator of src/src/capture.ts,
the VaultDB class of src/db.ts, the consolidation pass of
src/src/consolidation.ts and the memory_save tool of src/index.ts.

Numbers the code handles as IEEE doubles are modelled as rationals where the
code only adds, subtracts, compares and sorts them, and as real numbers where
the code calls Math.exp / Math.log2.  The external cosine-distance function
of sqlite-vec (vec_distance_cosine) and the external embedder are parameters
of the definitions that call them.  SQL statements are modelled one by one on
an explicit database state; an ORDER BY is modelled as a stable merge sort
over the scan order of the table, and a thrown exception as an `Option Err`
second component (prior statements of the same call keep their effect, as
SQLite autocommits each statement unless an explicit transaction is open).
-/

namespace TotalReclaw

/- ### scoring.ts -/

noncomputable def DECAY_LAMBDA : ℝ := Real.log 2 / (30 * 24 * 60 * 60 * 1000)

/-- recencyDecay(createdAt, now) = exp(-DECAY_LAMBDA * (now - createdAt)). -/
noncomputable def recencyDecay (createdAt now : ℝ) : ℝ :=
  Real.exp (-DECAY_LAMBDA * (now - createdAt))

/-- accessBoost(n) = min(1.3, 1 + log2(1 + n) * 0.1). -/
noncomputable def accessBoost (accessCount : ℕ) : ℝ :=
  min 1.3 (1 + Real.logb 2 (1 + (accessCount : ℝ)) * 0.1)

/-- finalScore(similarity, createdAt, importance, accessCount, now). -/
noncomputable def finalScore (similarity createdAt importance : ℝ)
    (accessCount : ℕ) (now : ℝ) : ℝ :=
  similarity * (0.5 + 0.3 * recencyDecay createdAt now + 0.2 * importance) *
    accessBoost accessCount

/- ### capture.ts
A text is modelled by the observations evaluateCapture makes of it: its
length, whether each of the six regular expressions at the top of capture.ts
matches it, and the match counts of the two penalty regexes.  The regex
engine itself is external to the core. -/

structure CaptureText where
  length : ℕ
  /-- RELEVANT_MEMORIES_TAG matches. -/
  hasRecallTag : Bool
  /-- EXPLICIT_MEMORY matches. -/
  explicitMemory : Bool
  /-- PERSONAL_INFO matches. -/
  personalInfo : Bool
  /-- STRUCTURED_DATA matches. -/
  structuredData : Bool
  /-- TECH_DECISION matches. -/
  techDecision : Bool
  /-- PREFERENCE matches. -/
  preferenceWords : Bool
  /-- number of occurrences of three backticks. -/
  codeFences : ℕ
  /-- number of markdown header lines. -/
  mdHeaders : ℕ

structure CaptureResult where
  score : ℚ
  category : String
  deriving DecidableEq

/-- The ordered rule list CATEGORIES of capture.ts: (pattern, category, weight). -/
def CATEGORIES : List ((CaptureText → Bool) × String × ℚ) :=
  [(fun t => t.explicitMemory, "preference", 0.5),
   (fun t => t.personalInfo, "preference", 0.3),
   (fun t => t.structuredData, "entity", 0.3),
   (fun t => t.techDecision, "decision", 0.3),
   (fun t => t.preferenceWords, "preference", 0.2)]

/-- evaluateCapture of capture.ts.  The loop state is
(score, bestCategory, bestCategoryScore); the `!text` guard of the source is
subsumed by `length < 20` since an empty string has length 0. -/
def evaluateCapture (t : CaptureText) : CaptureResult :=
  if t.length < 20 ∨ 2000 < t.length then ⟨0, "other"⟩
  else if t.hasRecallTag then ⟨0, "other"⟩
  else
    let st := CATEGORIES.foldl
      (fun acc rule =>
        if rule.1 t then
          if rule.2.2 > acc.2.2 then (acc.1 + rule.2.2, rule.2.1, rule.2.2)
          else (acc.1 + rule.2.2, acc.2.1, acc.2.2)
        else acc)
      ((0 : ℚ), "other", (0 : ℚ))
    let s1 := if 2 ≤ t.codeFences then st.1 - 0.3 else st.1
    let s2 := if 3 ≤ t.mdHeaders then s1 - 0.2 else s1
    ⟨max 0 s2, st.2.1⟩

/- Specification-side restatement of the capture evaluator, written from the
spec's words for claim C8: sum of the weights of every matched rule, the two
penalties, a floor at 0, and the category of the highest-weight matched rule
with the first match winning ties (bestRule keeps the first maximum). -/

def matchedRules (t : CaptureText) : List ((CaptureText → Bool) × String × ℚ) :=
  CATEGORIES.filter (fun r => r.1 t)

def specRawScore (t : CaptureText) : ℚ :=
  ((matchedRules t).map (fun r => r.2.2)).sum
    - (if 2 ≤ t.codeFences then 0.3 else 0)
    - (if 3 ≤ t.mdHeaders then 0.2 else 0)

/-- The highest-weight rule of a list, the first winning ties: a later rule
replaces an earlier one only when its weight is strictly greater. -/
def bestRule (rs : List ((CaptureText → Bool) × String × ℚ)) :
    Option ((CaptureText → Bool) × String × ℚ) :=
  match rs with
  | [] => none
  | r :: rest =>
    match bestRule rest with
    | none => some r
    | some b => if b.2.2 > r.2.2 then some b else some r

def specCategory (t : CaptureText) : String :=
  match bestRule (matchedRules t) with
  | some r => r.2.1
  | none => "other"

def specCapture (t : CaptureText) : CaptureResult :=
  if t.length < 20 ∨ 2000 < t.length ∨ t.hasRecallTag then ⟨0, "other"⟩
  else ⟨max 0 (specRawScore t), specCategory t⟩

/- ### db.ts — the VaultDB class
The SQLite file is a DbFile: the memories table in rowid order, the
memory_vec virtual table (rows in insertion order, plus its declared
dimension — none while the table has not been created), and the
`dimensions` row of vault_meta.  The VaultDB instance adds the in-memory
fields of the class: `dimensions` and `vecReady`.  A thrown SQLite error is
the `some` case of the returned `Option Err`. -/

abbrev Vec := List ℚ

/-- A row of the memories table.  The agent_id, namespace and metadata
columns are carried through every statement unexamined (no query filters or
reads them), so they are omitted from the embedding. -/
structure MemoryRow where
  id : String
  text : String
  category : String
  importance : ℚ
  access_count : ℕ
  created_at : ℚ
  updated_at : ℚ
  last_accessed_at : Option ℚ
  consolidated_into : Option String
  deriving DecidableEq

structure DbFile where
  memories : List MemoryRow
  vecRows : List (String × Vec)
  /-- declared dimension of the memory_vec vec0 table; none = table absent. -/
  vecTableDims : Option ℕ
  /-- the value of the `dimensions` key of vault_meta. -/
  metaDims : Option ℕ
  deriving DecidableEq

structure VaultDB where
  file : DbFile
  dimensions : Option ℕ
  vecReady : Bool
  deriving DecidableEq

inductive Err where
  /-- ensureVec: stored dimensions differ from the caller's. -/
  | dimensionMismatch
  /-- INSERT INTO memories: UNIQUE constraint on the primary key. -/
  | uniqueViolation
  /-- INSERT INTO memory_vec: no such table. -/
  | noVecTable
  /-- INSERT INTO memory_vec: vector length differs from the declared dimension. -/
  | vecDimViolation
  deriving DecidableEq

namespace VaultDB

/-- ensureVec(dimensions).  Loading the sqlite-vec extension is assumed to
succeed (its failure is an environment error external to the logic). -/
def ensureVec (d : ℕ) (s : VaultDB) : VaultDB × Option Err :=
  if s.vecReady then (s, none)
  else
    let s1 := { s with dimensions := some d }
    match s1.file.vecTableDims with
    | some _ =>
      match s1.file.metaDims with
      | some stored =>
        if stored ≠ d then (s1, some Err.dimensionMismatch)
        else ({ s1 with vecReady := true }, none)
      | none => ({ s1 with vecReady := true }, none)
    | none =>
      ({ s1 with
          file := { s1.file with vecTableDims := some d, metaDims := some d },
          vecReady := true }, none)

/-- The memories row insert(id, text, embedding, opts) builds:
category ?? "other", importance ?? 0.7, access_count 0,
created_at = opts.createdAt ?? now, updated_at = now. -/
def insertRow (id text : String) (category : Option String)
    (importance : Option ℚ) (createdAt : Option ℚ) (now : ℚ) : MemoryRow :=
  { id := id, text := text, category := category.getD "other",
    importance := importance.getD 0.7, access_count := 0,
    created_at := createdAt.getD now, updated_at := now,
    last_accessed_at := none, consolidated_into := none }

/-- The INSERT INTO memories statement: fails on a duplicate primary key. -/
def memoriesInsert (row : MemoryRow) (f : DbFile) : DbFile × Option Err :=
  if f.memories.any (fun m => m.id == row.id) then (f, some Err.uniqueViolation)
  else ({ f with memories := f.memories ++ [row] }, none)

/-- The INSERT INTO memory_vec statement: the vec0 table rejects a vector
whose length differs from its declared dimension. -/
def vecInsert (id : String) (v : Vec) (f : DbFile) : DbFile × Option Err :=
  match f.vecTableDims with
  | none => (f, some Err.noVecTable)
  | some d =>
    if v.length = d then ({ f with vecRows := f.vecRows ++ [(id, v)] }, none)
    else (f, some Err.vecDimViolation)

/-- insert(id, text, embedding, opts): ensureVec, then the two INSERT
statements in sequence.  No transaction is opened, so an earlier statement
keeps its effect when a later one fails. -/
def insert (id text : String) (embedding : Vec) (category : Option String)
    (importance : Option ℚ) (createdAt : Option ℚ) (now : ℚ) (s : VaultDB) :
    VaultDB × Option Err :=
  match ensureVec embedding.length s with
  | (s1, some e) => (s1, some e)
  | (s1, none) =>
    let row := insertRow id text category importance createdAt now
    match memoriesInsert row s1.file with
    | (f2, some e) => ({ s1 with file := f2 }, some e)
    | (f2, none) =>
      match vecInsert id embedding f2 with
      | (f3, e) => ({ s1 with file := f3 }, e)

/-- The FROM memory_vec JOIN memories ON m.id = v.id scan with the
WHERE m.consolidated_into IS NULL filter, in vec-row order, with the cosine
distance of each stored vector to the query computed by the external
`dist`. -/
structure DistRow where
  row : MemoryRow
  distance : ℚ
  deriving DecidableEq

def lookupMemory (id : String) (f : DbFile) : Option MemoryRow :=
  f.memories.find? (fun m => m.id == id)

def activeVecJoin (dist : Vec → Vec → ℚ) (query : Vec) (f : DbFile) :
    List DistRow :=
  f.vecRows.filterMap (fun p =>
    match lookupMemory p.1 f with
    | some m =>
      if m.consolidated_into = none
      then some { row := m, distance := dist p.2 query }
      else none
    | none => none)

/-- ORDER BY distance ASC comparator (the SQL sort is modelled as a stable
merge sort over the scan order). -/
def byDistance (a b : DistRow) : Bool := decide (a.distance ≤ b.distance)

structure SearchResult where
  row : MemoryRow
  distance : ℚ
  similarity : ℚ
  score : ℚ
  deriving DecidableEq

/-- findSimilar(embedding, threshold): top 5 active rows by distance, mapped
to similarity = 1 - distance with score 0, filtered to
similarity ≥ threshold. -/
def findSimilar (dist : Vec → Vec → ℚ) (embedding : Vec) (threshold : ℚ)
    (s : VaultDB) : List SearchResult :=
  if s.vecReady = false then []
  else
    (((((activeVecJoin dist embedding s.file).mergeSort byDistance).take 5).map
      (fun r => { row := r.row, distance := r.distance,
                  similarity := 1 - r.distance, score := (0 : ℚ) })).filter
      (fun r => decide (threshold ≤ r.similarity)))

/-- A row of knnSearch's scored list: similarity = 1 - distance and the real
score computed by finalScore at the time of the query. -/
structure ScoredResult where
  row : MemoryRow
  distance : ℚ
  similarity : ℚ
  score : ℝ

/-- The SQL candidate fetch of knnSearch(queryVec, limit, category):
active rows (optionally restricted to one category) ordered by ascending
distance, LIMIT limit * 3. -/
def knnCandidates (dist : Vec → Vec → ℚ) (query : Vec) (limit : ℕ)
    (category : Option String) (f : DbFile) : List DistRow :=
  let base := activeVecJoin dist query f
  let base : List DistRow :=
    match category with
    | some c => base.filter (fun r => r.row.category == c)
    | none => base
  ((base.mergeSort byDistance).take (limit * 3))

noncomputable def scoreRow (now : ℚ) (r : DistRow) : ScoredResult :=
  let similarity : ℚ := 1 - r.distance
  { row := r.row, distance := r.distance, similarity := similarity,
    score := finalScore (similarity : ℝ) (r.row.created_at : ℝ)
      (r.row.importance : ℝ) r.row.access_count (now : ℝ) }

/-- scored.sort((a, b) => b.score - a.score): a stable sort descending by
score (Array.prototype.sort is stable). -/
noncomputable def byScoreDesc (a b : ScoredResult) : Bool :=
  decide (b.score ≤ a.score)

noncomputable def sortedScored (dist : Vec → Vec → ℚ) (query : Vec)
    (limit : ℕ) (category : Option String) (now : ℚ) (f : DbFile) :
    List ScoredResult :=
  (((knnCandidates dist query limit category f).map (scoreRow now)).mergeSort
    byScoreDesc)

/-- knnSearch(queryVec, limit, category): score the candidates, sort
descending by score, truncate to limit, and bump access_count and
last_accessed_at of exactly the returned rows (one UPDATE per returned
row). -/
noncomputable def knnSearch (dist : Vec → Vec → ℚ) (query : Vec) (limit : ℕ)
    (category : Option String) (now : ℚ) (s : VaultDB) :
    List ScoredResult × VaultDB :=
  if s.vecReady = false then ([], s)
  else
    let top := (sortedScored dist query limit category now s.file).take limit
    let f2 := top.foldl
      (fun (f : DbFile) (r : ScoredResult) =>
        { f with memories := f.memories.map (fun m =>
            if m.id == r.row.id
            then { m with access_count := m.access_count + 1,
                          last_accessed_at := some now }
            else m) })
      s.file
    (top, { s with file := f2 })

/-- deleteById(id): hard delete of the record and its vector rows. -/
def deleteById (id : String) (s : VaultDB) : VaultDB × Bool :=
  let hit := s.file.memories.any (fun m => m.id == id)
  ({ s with file :=
      { s.file with
          memories := s.file.memories.filter (fun m => !(m.id == id)),
          vecRows := s.file.vecRows.filter (fun p => !(p.1 == id)) } }, hit)

/-- markConsolidated(ids, newId): one UPDATE per id, setting
consolidated_into = newId. -/
def markConsolidated (ids : List String) (newId : String) (f : DbFile) :
    DbFile :=
  ids.foldl
    (fun (f : DbFile) (i : String) =>
      { f with memories := f.memories.map (fun m =>
          if m.id == i then { m with consolidated_into := some newId } else m) })
    f

/-- getActiveOlderThan(ageMs): active records with created_at < now - ageMs,
ORDER BY created_at ASC. -/
def getActiveOlderThan (ageMs now : ℚ) (f : DbFile) : List MemoryRow :=
  ((f.memories.filter (fun m =>
      decide (m.consolidated_into = none ∧ m.created_at < now - ageMs))).mergeSort
    (fun a b => decide (a.created_at ≤ b.created_at)))

/-- getVecById(id): the stored vector of the first memory_vec row with this
id, none when the vec system is not ready or no row exists. -/
def getVecById (id : String) (s : VaultDB) : Option Vec :=
  if s.vecReady = false then none
  else (s.file.vecRows.find? (fun p => p.1 == id)).map (fun p => p.2)

/-- transaction(fn): BEGIN; fn; COMMIT, with ROLLBACK on error.  The rollback
restores the database file; in-memory fields of the class (vecReady,
dimensions) keep whatever the body set them to. -/
def transaction (body : VaultDB → VaultDB × Option Err) (s : VaultDB) :
    VaultDB × Option Err :=
  match body s with
  | (s1, none) => (s1, none)
  | (s1, some e) => ({ s1 with file := s.file }, some e)

end VaultDB

/- ### consolidation.ts
The pass, as the transactional variant of the file defines it (the variant
whose loop filters neighbors to the old set and persists each merge inside
db.transaction).  The embedder and the UUID generator are parameters; the
loop result also carries the list of merged clusters (seed id first) as a
trace, which runConsolidation itself discards. -/

def SEVEN_DAYS : ℚ := 7 * 24 * 60 * 60 * 1000

def SIMILARITY_THRESHOLD : ℚ := 0.85

structure ConsResult where
  db : VaultDB
  clustered : List String
  merges : ℕ
  trace : List (List String)
  error : Option Err

/-- The per-cluster persist step: db.transaction wrapping db.insert of the
merged record and db.markConsolidated of the cluster members. -/
def consolidatePersist (newId mergedText : String) (newVec : Vec)
    (category : String) (importance : ℚ) (clusterIds : List String) (now : ℚ)
    (s : VaultDB) : VaultDB × Option Err :=
  VaultDB.transaction
    (fun s0 =>
      match VaultDB.insert newId mergedText newVec (some category)
          (some importance) none now s0 with
      | (s1, some e) => (s1, some e)
      | (s1, none) =>
        ({ s1 with file := VaultDB.markConsolidated clusterIds newId s1.file },
          none))
    s

/-- The for-loop of runConsolidation over the old records.  A thrown
transaction error aborts the loop (the async function rejects), so later
seeds are not processed. -/
def consolidationLoop (dist : Vec → Vec → ℚ) (embed : String → Vec)
    (freshIds : ℕ → String) (now : ℚ) (oldIds : List String) :
    List MemoryRow → VaultDB → List String → ℕ → ConsResult
  | [], s, clustered, _k => ⟨s, clustered, 0, [], none⟩
  | mem :: rest, s, clustered, k =>
    if clustered.contains mem.id then
      consolidationLoop dist embed freshIds now oldIds rest s clustered k
    else
      match VaultDB.getVecById mem.id s with
      | none => consolidationLoop dist embed freshIds now oldIds rest s clustered k
      | some vec =>
        let neighbors :=
          (VaultDB.findSimilar dist vec SIMILARITY_THRESHOLD s).filter
            (fun n => !(n.row.id == mem.id) && !(clustered.contains n.row.id)
              && oldIds.contains n.row.id)
        if neighbors.isEmpty then
          consolidationLoop dist embed freshIds now oldIds rest s clustered k
        else
          let clusterIds := mem.id :: neighbors.map (fun n => n.row.id)
          let mergedText :=
            String.intercalate " | " (mem.text :: neighbors.map (fun n => n.row.text))
          let maxImportance :=
            neighbors.foldl (fun a n => max a n.row.importance) mem.importance
          match consolidatePersist (freshIds k) mergedText (embed mergedText)
              mem.category maxImportance clusterIds now s with
          | (s2, some e) => ⟨s2, clustered, 0, [], some e⟩
          | (s2, none) =>
            let res := consolidationLoop dist embed freshIds now oldIds rest s2
              (clustered ++ clusterIds) (k + 1)
            ⟨res.db, res.clustered, res.merges + 1, clusterIds :: res.trace,
              res.error⟩

/-- runConsolidation(db, embedFn): fetch the eligible records once, return 0
merges when fewer than 2, then run the clustering loop. -/
def runConsolidation (dist : Vec → Vec → ℚ) (embed : String → Vec)
    (freshIds : ℕ → String) (now : ℚ) (s : VaultDB) : ConsResult :=
  let old := VaultDB.getActiveOlderThan SEVEN_DAYS now s.file
  if old.length < 2 then ⟨s, [], 0, [], none⟩
  else consolidationLoop dist embed freshIds now (old.map (fun m => m.id)) old s [] 0

/- ### index.ts — the memory_save tool
The sanitizer verdict and the isValidMemoryText check are the booleans the
two external helpers return for the text; the embedding of the cleaned text
and the generated UUID are parameters. -/

def DEDUP_THRESHOLD : ℚ := 0.95

inductive SaveOutcome where
  | flaggedRejected
  | invalidRejected
  | failed (e : Err)
  | duplicate (m : VaultDB.SearchResult)
  | saved (id : String)
  deriving DecidableEq

/-- memory_save execute: sanitizer rejection, shape rejection, ensureVec,
the dedup findSimilar at 0.95 short-circuiting on its first hit, and
otherwise the insert of a fresh record. -/
def memorySave (dist : Vec → Vec → ℚ) (flagged valid : Bool) (clean : String)
    (embedding : Vec) (newId : String) (category : Option String)
    (importance : Option ℚ) (now : ℚ) (s : VaultDB) : VaultDB × SaveOutcome :=
  if flagged then (s, SaveOutcome.flaggedRejected)
  else if valid = false then (s, SaveOutcome.invalidRejected)
  else
    match VaultDB.ensureVec embedding.length s with
    | (s1, some e) => (s1, SaveOutcome.failed e)
    | (s1, none) =>
      match VaultDB.findSimilar dist embedding DEDUP_THRESHOLD s1 with
      | m :: _ => (s1, SaveOutcome.duplicate m)
      | [] =>
        match VaultDB.insert newId clean embedding category importance none
            now s1 with
        | (s2, some e) => (s2, SaveOutcome.failed e)
        | (s2, none) => (s2, SaveOutcome.saved newId)

/-- A concrete stand-in for vec_distance_cosine usable in closed
evaluations: every concrete store below only ever compares equal vectors,
and the cosine distance of a vector to itself is 0. -/
def distSame (a b : Vec) : ℚ := if a = b then 0 else 1

/-! ## Theorems -/

/- ### Capture evaluator (claims C8, C10) -/

set_option maxHeartbeats 1000000 in
lemma evaluateCapture_eq_specCapture (t : CaptureText) :
    evaluateCapture t = specCapture t := by
  obtain ⟨len, tag, b1, b2, b3, b4, b5, cf, hd⟩ := t
  by_cases h1 : len < 20
  · cases tag <;> simp [evaluateCapture, specCapture, h1]
  by_cases h2 : 2000 < len
  · cases tag <;> simp [evaluateCapture, specCapture, h1, h2]
  cases tag
  · cases b1 <;> cases b2 <;> cases b3 <;> cases b4 <;> cases b5 <;>
      by_cases h3 : 2 ≤ cf <;> by_cases h4 : 3 ≤ hd <;>
        norm_num [evaluateCapture, specCapture, specRawScore, specCategory,
          bestRule, matchedRules, CATEGORIES, h1, h2, h3, h4]
  · simp [evaluateCapture, specCapture, h1, h2]

/-- Claim C8: for every input text, evaluateCapture returns score 0 and
category "other" when the length is below 20 or above 2000 characters or the
text carries a recalled-memory marker; otherwise its score is the sum of the
weights of every matched signal rule, minus 0.3 at two or more code fences
and minus 0.2 at three or more markdown headers, floored at 0, and its
category is that of the highest-weight matched rule with the first match
winning ties (specCapture states exactly this formula; when no rule matches
the category defaults to "other"). -/
theorem evaluateCapture_matches_spec :
    ∀ t : CaptureText, evaluateCapture t = specCapture t :=
  evaluateCapture_eq_specCapture

set_option maxHeartbeats 1000000 in
/-- Claim C10: the capture score always lies in [0, 1.6] and the returned
category is one of preference, entity, decision, other — the categories
fact, procedure and context are never produced. -/
theorem evaluateCapture_bounds (t : CaptureText) :
    0 ≤ (evaluateCapture t).score ∧ (evaluateCapture t).score ≤ 1.6 ∧
      (evaluateCapture t).category ∈ ["preference", "entity", "decision", "other"] := by
  obtain ⟨len, tag, b1, b2, b3, b4, b5, cf, hd⟩ := t
  by_cases h1 : len < 20
  · norm_num [evaluateCapture, h1]
  by_cases h2 : 2000 < len
  · norm_num [evaluateCapture, h1, h2]
  cases tag
  · cases b1 <;> cases b2 <;> cases b3 <;> cases b4 <;> cases b5 <;>
      by_cases h3 : 2 ≤ cf <;> by_cases h4 : 3 ≤ hd <;>
        norm_num [evaluateCapture, CATEGORIES, h1, h2, h3, h4, le_max_iff, max_le_iff]
  · norm_num [evaluateCapture, h1, h2]

/- ### Concrete stores for closed evaluations -/

def sampleRow (id : String) (createdAt : ℚ) : MemoryRow :=
  { id := id, text := "txt", category := "other", importance := 0.7,
    access_count := 0, created_at := createdAt, updated_at := createdAt,
    last_accessed_at := none, consolidated_into := none }

/-- An empty store whose vec table is committed at dimension 1. -/
def readyEmptyDB : VaultDB :=
  { file := { memories := [], vecRows := [], vecTableDims := some 1, metaDims := some 1 },
    dimensions := some 1, vecReady := true }

def committed1536File : DbFile :=
  { memories := [sampleRow "a" 0], vecRows := [("a", [1])],
    vecTableDims := some 1536, metaDims := some 1536 }

/-- A live instance that has committed dimension 1536. -/
def committed1536DB : VaultDB :=
  { file := committed1536File, dimensions := some 1536, vecReady := true }

/-- The same database file opened by a fresh instance (vecReady false). -/
def restarted1536DB : VaultDB :=
  { file := committed1536File, dimensions := none, vecReady := false }

/- ### Vector store: insert atomicity (claim C1) -/

/-- Claim C1 counterexample: on a store committed at dimension 1, inserting
a record with a 2-dimensional vector fails in the second statement, yet the
record row persists with no paired vector — the store is changed although
part of the insert failed, so insert is not atomic. -/
theorem insert_atomicity_cex :
    (VaultDB.insert "a" "t" [1, 2] none none none 0 readyEmptyDB).2 = some Err.vecDimViolation ∧
    (VaultDB.insert "a" "t" [1, 2] none none none 0 readyEmptyDB).1.file.memories =
      [VaultDB.insertRow "a" "t" none none none 0] ∧
    (VaultDB.insert "a" "t" [1, 2] none none none 0 readyEmptyDB).1.file.vecRows = [] :=
  ⟨rfl, rfl, rfl⟩

/-- Claim C1 amended: insert runs its two INSERT statements without an
enclosing transaction, so when the memory_vec insert fails (vector length
different from the committed dimension) after the memories insert succeeded,
the record row persists and no vector is stored. -/
theorem insert_vec_failure_partial (id text : String) (embedding : Vec)
    (category : Option String) (importance createdAt : Option ℚ) (now : ℚ)
    (s : VaultDB) (d : ℕ)
    (hready : s.vecReady = true)
    (htable : s.file.vecTableDims = some d)
    (hlen : embedding.length ≠ d)
    (hfresh : ∀ m ∈ s.file.memories, m.id ≠ id) :
    VaultDB.insert id text embedding category importance createdAt now s =
      ({ s with file := { s.file with memories :=
          s.file.memories ++ [VaultDB.insertRow id text category importance createdAt now] } },
        some Err.vecDimViolation) := by
  have hex : ¬ ∃ x ∈ s.file.memories, x.id = id := by
    rintro ⟨x, hx, he⟩
    exact hfresh x hx he
  simp [VaultDB.insert, VaultDB.ensureVec, hready, VaultDB.memoriesInsert,
    VaultDB.insertRow, hex, VaultDB.vecInsert, htable, hlen]

theorem insert_vec_failure_partial_witness :
    VaultDB.insert "a" "t" [1, 2] none none none 0 readyEmptyDB =
      ({ readyEmptyDB with file := { readyEmptyDB.file with memories :=
          [VaultDB.insertRow "a" "t" none none none 0] } },
        some Err.vecDimViolation) :=
  insert_vec_failure_partial "a" "t" [1, 2] none none none 0 readyEmptyDB 1
    rfl rfl (by decide) (by simp [readyEmptyDB])

/- ### Vector store: ensureVec (claim C3) -/

/-- Claim C3 counterexample: on a live instance that has already committed
dimension 1536 (vecReady), a later initialization with 768 returns silently
with no error and no change — the claim requires a dimension-mismatch
failure. -/
theorem ensureVec_mismatch_cex :
    VaultDB.ensureVec 768 committed1536DB = (committed1536DB, none) ∧
    committed1536DB.file.metaDims = some 1536 ∧ (768 : ℕ) ≠ 1536 :=
  ⟨by rfl, by rfl, by decide⟩

/-- Claim C3 amended: initialization is idempotent on the store state, and
on an instance that has not yet validated a dimension this session
(vecReady false) a dimension differing from the committed one fails with the
dimension-mismatch error and leaves the database file unchanged; once the
instance is vecReady, however, a differing dimension is accepted silently
(the counterexample above). -/
theorem ensureVec_idempotent_and_mismatch :
    (∀ (d : ℕ) (s : VaultDB),
      (VaultDB.ensureVec d (VaultDB.ensureVec d s).1).1 = (VaultDB.ensureVec d s).1) ∧
    (∀ (d stored dt : ℕ) (s : VaultDB), s.vecReady = false →
      s.file.vecTableDims = some dt → s.file.metaDims = some stored → stored ≠ d →
      (VaultDB.ensureVec d s).2 = some Err.dimensionMismatch ∧
        (VaultDB.ensureVec d s).1.file = s.file) := by
  constructor
  · intro d s
    by_cases hr : s.vecReady
    · simp [VaultDB.ensureVec, hr]
    · rcases htd : s.file.vecTableDims with _ | dt
      · simp [VaultDB.ensureVec, hr, htd]
      · rcases hmd : s.file.metaDims with _ | stored
        · simp [VaultDB.ensureVec, hr, htd, hmd]
        · by_cases he : stored = d
          · simp [VaultDB.ensureVec, hr, htd, hmd, he]
          · simp [VaultDB.ensureVec, hr, htd, hmd, he]
  · intro d stored dt s hr htd hmd hne
    simp [VaultDB.ensureVec, hr, htd, hmd, hne]

theorem ensureVec_idempotent_and_mismatch_witness :
    (VaultDB.ensureVec 768 restarted1536DB).2 = some Err.dimensionMismatch ∧
      (VaultDB.ensureVec 768 restarted1536DB).1.file = restarted1536DB.file :=
  ensureVec_idempotent_and_mismatch.2 768 1536 1536 restarted1536DB
    (by rfl) (by rfl) (by rfl) (by decide)

/- ### Ranking engine (claim C6) -/

lemma DECAY_LAMBDA_pos : 0 < DECAY_LAMBDA :=
  div_pos (Real.log_pos (by norm_num)) (by norm_num)

lemma recencyDecay_pos (c n : ℝ) : 0 < recencyDecay c n := Real.exp_pos _

lemma recencyDecay_strict (c1 c2 n : ℝ) (h : c1 < c2) :
    recencyDecay c1 n < recencyDecay c2 n := by
  unfold recencyDecay
  rw [Real.exp_lt_exp]
  nlinarith [DECAY_LAMBDA_pos]

lemma accessBoost_pos (ac : ℕ) : 0 < accessBoost ac := by
  unfold accessBoost
  have hl : 0 ≤ Real.logb 2 (1 + (ac : ℝ)) :=
    Real.logb_nonneg (by norm_num) (le_add_of_nonneg_right (Nat.cast_nonneg ac))
  apply lt_min (by norm_num)
  nlinarith

lemma bracket_pos (c n imp : ℝ) (himp : 0 ≤ imp) :
    0 < 0.5 + 0.3 * recencyDecay c n + 0.2 * imp := by
  nlinarith [recencyDecay_pos c n]

/-- Claim C6 counterexample: at similarity 0 the score is 0 for every
importance, so finalScore is not strictly increasing in importance (nor in
recencyDecay) with the other arguments fixed at similarity 0. -/
theorem finalScore_zero_similarity_cex :
    finalScore 0 0 0 0 0 = finalScore 0 0 1 0 0 ∧ (0 : ℝ) < 1 := by
  constructor
  · simp [finalScore]
  · norm_num

/-- Claim C6 amended: finalScore is strictly increasing in similarity
(within the importance domain 0 ≤ importance), and strictly increasing in
recencyDecay (equivalently in createdAt) and in importance provided the
fixed similarity is positive; at similarity 0 the score is constant. -/
theorem finalScore_strict_mono :
    (∀ (createdAt imp : ℝ) (ac : ℕ) (now s1 s2 : ℝ), 0 ≤ imp → s1 < s2 →
      finalScore s1 createdAt imp ac now < finalScore s2 createdAt imp ac now) ∧
    (∀ (sim c1 c2 imp : ℝ) (ac : ℕ) (now : ℝ), 0 < sim → c1 < c2 →
      finalScore sim c1 imp ac now < finalScore sim c2 imp ac now) ∧
    (∀ (sim createdAt i1 i2 : ℝ) (ac : ℕ) (now : ℝ), 0 < sim → i1 < i2 →
      finalScore sim createdAt i1 ac now < finalScore sim createdAt i2 ac now) := by
  refine ⟨?_, ?_, ?_⟩
  · intro c imp ac now s1 s2 himp hs
    have hB := bracket_pos c now imp himp
    have hK := accessBoost_pos ac
    unfold finalScore
    nlinarith [mul_lt_mul_of_pos_right hs (mul_pos hB hK)]
  · intro sim c1 c2 imp ac now hsim hc
    have hr := recencyDecay_strict c1 c2 now hc
    have hK := accessBoost_pos ac
    unfold finalScore
    nlinarith [mul_pos hsim hK]
  · intro sim c i1 i2 ac now hsim hi
    have hK := accessBoost_pos ac
    unfold finalScore
    nlinarith [mul_pos hsim hK]

theorem finalScore_strict_mono_witness :
    finalScore 1 0 0 0 0 < finalScore 2 0 0 0 0 ∧
    finalScore 1 (-1) 0 0 0 < finalScore 1 0 0 0 0 ∧
    finalScore 1 0 0 0 0 < finalScore 1 0 1 0 0 :=
  ⟨finalScore_strict_mono.1 0 0 0 0 1 2 (by norm_num) (by norm_num),
   finalScore_strict_mono.2.1 1 (-1) 0 0 0 0 (by norm_num) (by norm_num),
   finalScore_strict_mono.2.2 1 0 0 1 0 0 (by norm_num) (by norm_num)⟩

lemma ensureVec_memories (d : ℕ) (s : VaultDB) :
    (VaultDB.ensureVec d s).1.file.memories = s.file.memories := by
  unfold VaultDB.ensureVec
  by_cases hr : s.vecReady
  · simp [hr]
  · rcases htd : s.file.vecTableDims with _ | dt
    · simp [hr, htd]
    · rcases hmd : s.file.metaDims with _ | stored
      · simp [hr, htd, hmd]
      · by_cases he : stored ≠ d
        · simp [hr, htd, hmd, he]
        · simp [hr, htd, hmd, he]

lemma vecInsert_memories (id : String) (emb : Vec) (f : DbFile) :
    (VaultDB.vecInsert id emb f).1.memories = f.memories := by
  unfold VaultDB.vecInsert
  rcases f.vecTableDims with _ | d
  · rfl
  · by_cases hlen : emb.length = d
    · simp [hlen]
    · simp [hlen]

lemma memoriesInsert_none (row : MemoryRow) (f f2 : DbFile)
    (h : VaultDB.memoriesInsert row f = (f2, none)) :
    f2.memories = f.memories ++ [row] := by
  unfold VaultDB.memoriesInsert at h
  by_cases hdup : f.memories.any (fun m => m.id == row.id)
  · rw [if_pos hdup] at h
    simp at h
  · rw [if_neg hdup] at h
    injection h with h1 h2
    rw [← h1]

lemma insert_success_memories (id text : String) (emb : Vec)
    (cat : Option String) (imp cAt : Option ℚ) (now : ℚ) (s : VaultDB)
    (h : (VaultDB.insert id text emb cat imp cAt now s).2 = none) :
    (VaultDB.insert id text emb cat imp cAt now s).1.file.memories =
      s.file.memories ++ [VaultDB.insertRow id text cat imp cAt now] := by
  unfold VaultDB.insert at h ⊢
  split at h
  next s1 e heq => simp at h
  next s1 heq =>
    have hm1 : s1.file.memories = s.file.memories := by
      have h2 := ensureVec_memories emb.length s
      rw [heq] at h2
      exact h2
    dsimp only at h ⊢
    split at h
    next f2 e2 heq2 => simp at h
    next f2 heq2 =>
      rcases hVI : VaultDB.vecInsert id emb f2 with ⟨f3, e3⟩
      have h3 : f3.memories = f2.memories := by
        have h4 := vecInsert_memories id emb f2
        rw [hVI] at h4
        exact h4
      dsimp only
      rw [h3, memoriesInsert_none _ _ _ heq2, hm1]

lemma markConsolidated_memories (ids : List String) (newId : String) (f : DbFile) :
    (VaultDB.markConsolidated ids newId f).memories =
      f.memories.map (fun m =>
        if m.id ∈ ids then { m with consolidated_into := some newId } else m) := by
  induction ids generalizing f with
  | nil => simp [VaultDB.markConsolidated]
  | cons i rest ih =>
    have hstep : VaultDB.markConsolidated (i :: rest) newId f =
        VaultDB.markConsolidated rest newId
          { f with memories := f.memories.map (fun m =>
              if m.id == i then { m with consolidated_into := some newId } else m) } := rfl
    rw [hstep, ih]
    dsimp only
    rw [List.map_map]
    apply List.map_congr_left
    intro m _
    by_cases h1 : m.id = i
    · by_cases h2 : m.id ∈ rest <;> simp [Function.comp, h1, h2]
    · by_cases h2 : m.id ∈ rest <;> simp [Function.comp, h1, h2]

/-- Claim C2: the per-cluster persist step of the consolidation pass runs
the successor insert and the member marking inside one transaction, so every
resulting state either has the merged successor present with every cluster
member marked consolidated into it, or is completely unchanged — no state
has one effect without the other. -/
theorem consolidatePersist_atomic (newId mergedText : String) (newVec : Vec)
    (category : String) (importance : ℚ) (clusterIds : List String) (now : ℚ)
    (s : VaultDB) :
    ((consolidatePersist newId mergedText newVec category importance clusterIds now s).2 = none ∧
      (∃ m ∈ (consolidatePersist newId mergedText newVec category importance clusterIds now s).1.file.memories,
        m.id = newId ∧ m.text = mergedText) ∧
      (∀ m ∈ (consolidatePersist newId mergedText newVec category importance clusterIds now s).1.file.memories,
        m.id ∈ clusterIds → m.consolidated_into = some newId)) ∨
    (consolidatePersist newId mergedText newVec category importance clusterIds now s).1.file = s.file := by
  unfold consolidatePersist VaultDB.transaction
  rcases hIns : VaultDB.insert newId mergedText newVec (some category)
    (some importance) none now s with ⟨s1, e1⟩
  cases e1 with
  | some err =>
    right
    dsimp only
    rw [hIns]
  | none =>
    left
    have hmem := insert_success_memories newId mergedText newVec (some category)
      (some importance) none now s (by rw [hIns])
    rw [hIns] at hmem
    dsimp only at hmem ⊢
    rw [hIns]
    dsimp only
    refine ⟨rfl, ?_, ?_⟩
    · rw [markConsolidated_memories, hmem]
      by_cases hin : newId ∈ clusterIds
      · refine ⟨if (VaultDB.insertRow newId mergedText (some category) (some importance) none now).id ∈ clusterIds
            then { VaultDB.insertRow newId mergedText (some category) (some importance) none now with consolidated_into := some newId }
            else VaultDB.insertRow newId mergedText (some category) (some importance) none now, ?_, ?_⟩
        · exact List.mem_map_of_mem _ (by simp)
        · simp [VaultDB.insertRow, hin]
      · refine ⟨VaultDB.insertRow newId mergedText (some category) (some importance) none now, ?_, by simp [VaultDB.insertRow]⟩
        have : VaultDB.insertRow newId mergedText (some category) (some importance) none now ∈
            s.file.memories ++ [VaultDB.insertRow newId mergedText (some category) (some importance) none now] := by simp
        have hmm := List.mem_map_of_mem
          (fun m => if m.id ∈ clusterIds then { m with consolidated_into := some newId } else m) this
        simp only [VaultDB.insertRow] at hmm ⊢
        simp only [hin, if_false] at hmm
        exact hmm
    · intro m hm hmid
      rw [markConsolidated_memories] at hm
      obtain ⟨m0, hm0, hme⟩ := List.mem_map.mp hm
      by_cases h0 : m0.id ∈ clusterIds
      · rw [← hme]
        simp [h0]
      · rw [← hme] at hmid
        simp [h0] at hmid

/- ### findSimilar and the dedup path (claims C5, C9) -/

namespace VaultDB

lemma byDistance_trans : ∀ a b c : DistRow, byDistance a b = true →
    byDistance b c = true → byDistance a c = true := by
  intro a b c hab hbc
  simp only [byDistance, decide_eq_true_eq] at *
  exact le_trans hab hbc

lemma byDistance_total : ∀ a b : DistRow, (byDistance a b || byDistance b a) = true := by
  intro a b
  simp only [byDistance, Bool.or_eq_true, decide_eq_true_eq]
  exact le_total a.distance b.distance

/-- The head of the distance-sorted scan is a row of minimal distance. -/
lemma mergeSort_byDistance_head (l : List DistRow) (jr : DistRow) (hjr : jr ∈ l) :
    ∃ h tl, l.mergeSort byDistance = h :: tl ∧ h ∈ l ∧
      ∀ x ∈ l, h.distance ≤ x.distance := by
  rcases hs : l.mergeSort byDistance with _ | ⟨h, tl⟩
  · have : jr ∈ l.mergeSort byDistance := (l.mergeSort_perm byDistance).mem_iff.mpr hjr
    rw [hs] at this
    simp at this
  · refine ⟨h, tl, rfl, ?_, ?_⟩
    · have : h ∈ l.mergeSort byDistance := by rw [hs]; exact List.mem_cons_self h tl
      exact (l.mergeSort_perm byDistance).mem_iff.mp this
    · intro x hx
      have hxs : x ∈ l.mergeSort byDistance := (l.mergeSort_perm byDistance).mem_iff.mpr hx
      rw [hs] at hxs
      rcases List.mem_cons.mp hxs with he | ht
      · rw [he]
      · have hp := List.sorted_mergeSort byDistance_trans byDistance_total l
        rw [hs] at hp
        have := (List.pairwise_cons.mp hp).1 x ht
        simpa [byDistance, decide_eq_true_eq] using this

lemma ensureVec_ready (d : ℕ) (s : VaultDB) (hready : s.vecReady = true) :
    ensureVec d s = (s, none) := by
  simp [ensureVec, hready]

/-- A join row whose similarity clears the threshold forces findSimilar to
return a nonempty list headed by a minimal-distance row clearing it. -/
lemma findSimilar_hit (dist : Vec → Vec → ℚ) (v : Vec) (th : ℚ) (s : VaultDB)
    (hready : s.vecReady = true) (jr : DistRow)
    (hjr : jr ∈ activeVecJoin dist v s.file) (hth : th ≤ 1 - jr.distance) :
    ∃ m rest, findSimilar dist v th s = m :: rest ∧ th ≤ m.similarity ∧
      ∀ jr2 ∈ activeVecJoin dist v s.file, m.distance ≤ jr2.distance := by
  obtain ⟨h, tl, hs, hmem, hmin⟩ := mergeSort_byDistance_head (activeVecJoin dist v s.file) jr hjr
  have hsim : th ≤ 1 - h.distance := le_trans hth (by have := hmin jr hjr; linarith)
  refine ⟨{ row := h.row, distance := h.distance, similarity := 1 - h.distance, score := 0 },
    ?_, ?_, by simpa using hsim, hmin⟩
  case _ => exact ((tl.take 4).map (fun r =>
    { row := r.row, distance := r.distance, similarity := 1 - r.distance,
      score := (0 : ℚ) })).filter (fun r => decide (th ≤ r.similarity))
  unfold findSimilar
  rw [if_neg (by simp [hready]), hs]
  have ht5 : (h :: tl).take 5 = h :: tl.take 4 := rfl
  rw [ht5, List.map_cons, List.filter_cons_of_pos (by simpa using hsim)]

lemma mem_activeVecJoin (dist : Vec → Vec → ℚ) (v : Vec) (f : DbFile)
    (rid : String) (w : Vec) (m : MemoryRow)
    (hvec : (rid, w) ∈ f.vecRows)
    (hlook : lookupMemory rid f = some m)
    (hactive : m.consolidated_into = none) :
    ({ row := m, distance := dist w v } : DistRow) ∈ activeVecJoin dist v f := by
  apply List.mem_filterMap.mpr
  exact ⟨(rid, w), hvec, by simp [hlook, hactive]⟩

end VaultDB

/-- Claim C9: a save whose embedding has similarity at least 0.95 to some
active stored record is rejected as a duplicate: the outcome is duplicate(m)
with the store returned unchanged, the surfaced match m clears the dedup
threshold, and m is a nearest active record (minimal cosine distance over
the active join). -/
theorem memorySave_dedup_rejects (dist : Vec → Vec → ℚ) (clean : String)
    (e : Vec) (newId : String) (cat : Option String) (imp : Option ℚ)
    (now : ℚ) (s : VaultDB) (jr : VaultDB.DistRow)
    (hready : s.vecReady = true)
    (hjr : jr ∈ VaultDB.activeVecJoin dist e s.file)
    (hsim : 0.95 ≤ 1 - jr.distance) :
    ∃ m, memorySave dist false true clean e newId cat imp now s =
        (s, SaveOutcome.duplicate m) ∧
      0.95 ≤ m.similarity ∧
      ∀ jr2 ∈ VaultDB.activeVecJoin dist e s.file, m.distance ≤ jr2.distance := by
  obtain ⟨m, rest, hfs, hms, hmin⟩ := VaultDB.findSimilar_hit dist e DEDUP_THRESHOLD s
    hready jr hjr (by simpa [DEDUP_THRESHOLD] using hsim)
  refine ⟨m, ?_, by simpa [DEDUP_THRESHOLD] using hms, hmin⟩
  unfold memorySave
  rw [if_neg (by simp), if_neg (by simp)]
  rw [VaultDB.ensureVec_ready e.length s hready]
  dsimp only
  rw [hfs]

def single1File : DbFile :=
  { memories := [sampleRow "a" 0], vecRows := [("a", [1])],
    vecTableDims := some 1, metaDims := some 1 }

/-- The store holding one active record "a" with vector [1]. -/
def single1DB : VaultDB :=
  { file := single1File, dimensions := some 1, vecReady := true }

theorem memorySave_dedup_rejects_witness :
    ∃ m, memorySave distSame false true "user tz" [1] "n1" none none 5 single1DB =
        (single1DB, SaveOutcome.duplicate m) ∧
      0.95 ≤ m.similarity ∧
      ∀ jr2 ∈ VaultDB.activeVecJoin distSame [1] single1DB.file,
        m.distance ≤ jr2.distance :=
  memorySave_dedup_rejects distSame "user tz" [1] "n1" none none 5 single1DB
    ⟨sampleRow "a" 0, distSame [1] [1]⟩ (by rfl)
    (by simp [VaultDB.activeVecJoin, single1DB, single1File, VaultDB.lookupMemory, sampleRow])
    (by norm_num [distSame])

/-- Claim C5 amended: findSimilar(v, t) with t ≤ 1 returns an active record
stored with vector v provided at most 5 active rows join against the vector
index; with 6 or more, the LIMIT 5 of the SQL fetch can exclude the record
even at distance 0 (see the crowding counterexample). -/
theorem findSimilar_returns_inserted (dist : Vec → Vec → ℚ) (v : Vec) (t : ℚ)
    (s : VaultDB) (rid : String) (m : MemoryRow)
    (hready : s.vecReady = true)
    (hvec : (rid, v) ∈ s.file.vecRows)
    (hlook : VaultDB.lookupMemory rid s.file = some m)
    (hactive : m.consolidated_into = none)
    (hd0 : dist v v = 0)
    (ht : t ≤ 1)
    (hsmall : (VaultDB.activeVecJoin dist v s.file).length ≤ 5) :
    ∃ res ∈ VaultDB.findSimilar dist v t s, res.row = m := by
  have hjr : ({ row := m, distance := dist v v } : VaultDB.DistRow) ∈
      VaultDB.activeVecJoin dist v s.file :=
    VaultDB.mem_activeVecJoin dist v s.file rid v m hvec hlook hactive
  have hsorted : ({ row := m, distance := dist v v } : VaultDB.DistRow) ∈
      (VaultDB.activeVecJoin dist v s.file).mergeSort VaultDB.byDistance :=
    ((VaultDB.activeVecJoin dist v s.file).mergeSort_perm _).mem_iff.mpr hjr
  have hlen : ((VaultDB.activeVecJoin dist v s.file).mergeSort VaultDB.byDistance).length ≤ 5 := by
    rw [((VaultDB.activeVecJoin dist v s.file).mergeSort_perm _).length_eq]
    exact hsmall
  refine ⟨{ row := m, distance := dist v v, similarity := 1 - dist v v, score := 0 },
    ?_, rfl⟩
  unfold VaultDB.findSimilar
  rw [if_neg (by simp [hready]), List.take_of_length_le hlen]
  apply List.mem_filter.mpr
  refine ⟨List.mem_map_of_mem _ hsorted, ?_⟩
  simpa [hd0] using ht

theorem findSimilar_returns_inserted_witness :
    ∃ res ∈ VaultDB.findSimilar distSame [1] 1 single1DB, res.row = sampleRow "a" 0 :=
  findSimilar_returns_inserted distSame [1] 1 single1DB "a" (sampleRow "a" 0)
    (by rfl) (by simp [single1DB, single1File])
    (by simp [VaultDB.lookupMemory, single1DB, single1File, sampleRow])
    (by rfl) (by simp [distSame]) (by norm_num)
    (by simp [VaultDB.activeVecJoin, single1DB, single1File, VaultDB.lookupMemory, sampleRow])

def sixDupFile : DbFile :=
  { memories := [sampleRow "a" 0, sampleRow "b" 1, sampleRow "c" 2,
      sampleRow "d" 3, sampleRow "e" 4, sampleRow "f" 5],
    vecRows := [("a", [1]), ("b", [1]), ("c", [1]), ("d", [1]), ("e", [1]), ("f", [1])],
    vecTableDims := some 1, metaDims := some 1 }

/-- Six active records all stored with the identical vector [1]; every
cosine distance of [1] to itself is 0, which distSame models exactly on
these inputs. -/
def sixDupDB : VaultDB :=
  { file := sixDupFile, dimensions := some 1, vecReady := true }

/-- Claim C5 counterexample: record "f" is active and stored with vector
[1] and the threshold 0.9 is at most 1, yet findSimilar([1], 0.9) does not
return it: five earlier records with the same vector fill the LIMIT 5
candidate fetch before the threshold filter runs. -/
theorem findSimilar_crowding_cex :
    (((VaultDB.findSimilar distSame [1] 0.9 sixDupDB).map (fun r => r.row.id)).contains "f") = false ∧
    ((0.9 : ℚ) ≤ 1) ∧
    ("f", [1]) ∈ sixDupDB.file.vecRows ∧
    (∃ mm ∈ sixDupDB.file.memories, mm.id = "f" ∧ mm.consolidated_into = none) := by
  refine ⟨?_, by norm_num, by simp [sixDupDB, sixDupFile],
    ⟨sampleRow "f" 5, by simp [sixDupDB, sixDupFile], by rfl, by rfl⟩⟩
  simp [VaultDB.findSimilar, VaultDB.activeVecJoin, sixDupDB, sixDupFile,
    VaultDB.lookupMemory, sampleRow, distSame, VaultDB.byDistance, List.mergeSort]

/- ### knnSearch ranking (claim C7) -/

namespace VaultDB

lemma byScoreDesc_trans : ∀ a b c : ScoredResult, byScoreDesc a b = true →
    byScoreDesc b c = true → byScoreDesc a c = true := by
  intro a b c hab hbc
  simp only [byScoreDesc, decide_eq_true_eq] at *
  exact le_trans hbc hab

lemma byScoreDesc_total : ∀ a b : ScoredResult,
    (byScoreDesc a b || byScoreDesc b a) = true := by
  intro a b
  simp only [byScoreDesc, Bool.or_eq_true, decide_eq_true_eq]
  exact le_total b.score a.score

end VaultDB

/-- Claim C7: knnSearch returns at most limit results, ordered by descending
score, and the stable sort keeps candidates of equal score in their original
ascending-distance order: for every score value, the equal-score rows of the
sorted list are exactly the equal-score rows of the scored candidate list in
the same order (the returned list is the take-limit of that sorted list). -/
theorem knnSearch_ranking (dist : Vec → Vec → ℚ) (query : Vec) (limit : ℕ)
    (category : Option String) (now : ℚ) (s : VaultDB) :
    ((VaultDB.knnSearch dist query limit category now s).1.length ≤ limit) ∧
    ((VaultDB.knnSearch dist query limit category now s).1.Pairwise
      (fun a b => b.score ≤ a.score)) ∧
    (∀ sc : ℝ, (VaultDB.sortedScored dist query limit category now s.file).filter
        (fun r => decide (r.score = sc)) =
      ((VaultDB.knnCandidates dist query limit category s.file).map
        (VaultDB.scoreRow now)).filter (fun r => decide (r.score = sc))) := by
  refine ⟨?_, ?_, ?_⟩
  · by_cases hr : s.vecReady = false
    · simp [VaultDB.knnSearch, hr]
    · simp only [VaultDB.knnSearch, hr, if_false]
      exact List.length_take_le _ _
  · by_cases hr : s.vecReady = false
    · simp [VaultDB.knnSearch, hr]
    · simp only [VaultDB.knnSearch, hr, if_false]
      have hsorted := List.sorted_mergeSort VaultDB.byScoreDesc_trans
        VaultDB.byScoreDesc_total
        ((VaultDB.knnCandidates dist query limit category s.file).map
          (VaultDB.scoreRow now))
      have htake : List.Sublist
          ((VaultDB.sortedScored dist query limit category now s.file).take limit)
          (VaultDB.sortedScored dist query limit category now s.file) :=
        List.take_sublist _ _
      have hpw := List.Pairwise.sublist htake hsorted
      exact hpw.imp (by
        intro a b h
        simpa [VaultDB.byScoreDesc, decide_eq_true_eq] using h)
  · intro sc
    set l := (VaultDB.knnCandidates dist query limit category s.file).map
      (VaultDB.scoreRow now) with hl
    set p : VaultDB.ScoredResult → Bool := fun r => decide (r.score = sc) with hp
    have hpair : (l.filter p).Pairwise (fun a b => VaultDB.byScoreDesc a b = true) := by
      apply List.pairwise_of_forall_mem_list
      intro a ha b hb
      have ha2 : a.score = sc := by simpa [hp] using List.of_mem_filter ha
      have hb2 : b.score = sc := by simpa [hp] using List.of_mem_filter hb
      simp [VaultDB.byScoreDesc, ha2, hb2]
    have hsub : List.Sublist (l.filter p) (l.mergeSort VaultDB.byScoreDesc) :=
      List.sublist_mergeSort VaultDB.byScoreDesc_trans VaultDB.byScoreDesc_total
        hpair (List.filter_sublist l)
    have hsub2 : List.Sublist ((l.filter p).filter p)
        ((l.mergeSort VaultDB.byScoreDesc).filter p) := hsub.filter p
    have hff : (l.filter p).filter p = l.filter p :=
      List.filter_eq_self.mpr (fun a ha => List.of_mem_filter ha)
    rw [hff] at hsub2
    have hlen : ((l.mergeSort VaultDB.byScoreDesc).filter p).length = (l.filter p).length :=
      ((l.mergeSort_perm VaultDB.byScoreDesc).filter p).length_eq
    exact (List.Sublist.eq_of_length hsub2 hlen.symm).symm

/- ### Consolidation clustering discipline (claim C4) -/

/-- The clustering discipline of one pass, checked over the trace of merged
clusters (seed id first in each): every cluster has at least two members,
every non-seed member id belongs to the eligible old set, and no member was
already claimed by an earlier cluster of the same pass (seen accumulates the
claimed ids). -/
def clustersOk (oldIds : List String) : List String → List (List String) → Bool
  | _, [] => true
  | seen, c :: cs =>
    (decide (2 ≤ c.length) &&
      c.tail.all (fun i => oldIds.contains i) &&
      c.all (fun i => !(seen.contains i))) &&
    clustersOk oldIds (seen ++ c) cs

lemma consolidationLoop_clusters_ok (dist : Vec → Vec → ℚ) (embed : String → Vec)
    (freshIds : ℕ → String) (now : ℚ) (oldIds : List String)
    (mems : List MemoryRow) (s : VaultDB) (clustered : List String) (k : ℕ)
    (seen : List String) (hseen : ∀ i ∈ seen, i ∈ clustered) :
    clustersOk oldIds seen
      (consolidationLoop dist embed freshIds now oldIds mems s clustered k).trace = true := by
  induction mems generalizing s clustered k seen with
  | nil => simp [consolidationLoop, clustersOk]
  | cons mem rest ih =>
    simp only [consolidationLoop]
    by_cases h1 : clustered.contains mem.id
    · rw [if_pos h1]
      exact ih s clustered k seen hseen
    · rw [if_neg h1]
      rcases hv : VaultDB.getVecById mem.id s with _ | vec
      · exact ih s clustered k seen hseen
      · dsimp only
        set neighbors := (VaultDB.findSimilar dist vec SIMILARITY_THRESHOLD s).filter
          (fun n => !(n.row.id == mem.id) && !(clustered.contains n.row.id)
            && oldIds.contains n.row.id) with hnb
        by_cases hne : neighbors.isEmpty
        · rw [if_pos hne]
          exact ih s clustered k seen hseen
        · rw [if_neg hne]
          rcases hcp : consolidatePersist (freshIds k)
              (String.intercalate " | " (mem.text :: neighbors.map (fun n => n.row.text)))
              (embed (String.intercalate " | " (mem.text :: neighbors.map (fun n => n.row.text))))
              mem.category
              (neighbors.foldl (fun a n => max a n.row.importance) mem.importance)
              (mem.id :: neighbors.map (fun n => n.row.id)) now s with ⟨s2, e2⟩
          cases e2 with
          | some err =>
            rw [hcp]
            rfl
          | none =>
            rw [hcp]
            simp only [clustersOk, Bool.and_eq_true, decide_eq_true_eq, List.all_eq_true]
            refine ⟨⟨⟨?_, ?_⟩, ?_⟩, ?_⟩
            · have hpos : 0 < neighbors.length := by
                rcases neighbors with _ | _
                · simp at hne
                · simp
              simp only [List.length_cons, List.length_map]
              omega
            · intro i hi
              simp only [List.tail_cons] at hi
              obtain ⟨n, hn, hni⟩ := List.mem_map.mp hi
              have := (List.mem_filter.mp (hnb ▸ hn)).2
              simp only [Bool.and_eq_true] at this
              rw [← hni]
              exact this.2
            · intro i hi
              rcases List.mem_cons.mp hi with he | hmemn
              · rw [he]
                simp only [Bool.not_eq_true']
                by_contra hc
                simp only [Bool.not_eq_false] at hc
                have h2 : mem.id ∈ seen := by simpa using hc
                exact h1 (by simpa using hseen mem.id h2)
              · obtain ⟨n, hn, hni⟩ := List.mem_map.mp hmemn
                have hfl := (List.mem_filter.mp (hnb ▸ hn)).2
                simp only [Bool.and_eq_true] at hfl
                have hnc : n.row.id ∉ clustered := by simpa using hfl.1.2
                simp only [Bool.not_eq_true']
                by_contra hc
                simp only [Bool.not_eq_false] at hc
                have hiseen : i ∈ seen := by simpa using hc
                have hicl : i ∈ clustered := hseen i hiseen
                rw [← hni] at hicl
                exact hnc hicl
            · apply ih
              intro i hi
              rcases List.mem_append.mp hi with hs2 | hc2
              · exact List.mem_append.mpr (Or.inl (hseen i hs2))
              · exact List.mem_append.mpr (Or.inr hc2)

/-- Claim C4: in every consolidation pass, every merged cluster has at least
two members (a seed with no qualifying neighbor produces no merge), every
non-seed member is drawn from the eligible old set, and no member of any
cluster was already claimed by an earlier cluster of the same pass. -/
theorem runConsolidation_clusters_ok (dist : Vec → Vec → ℚ)
    (embed : String → Vec) (freshIds : ℕ → String) (now : ℚ) (s : VaultDB) :
    clustersOk ((VaultDB.getActiveOlderThan SEVEN_DAYS now s.file).map (fun m => m.id))
      [] (runConsolidation dist embed freshIds now s).trace = true := by
  unfold runConsolidation
  by_cases hlt : (VaultDB.getActiveOlderThan SEVEN_DAYS now s.file).length < 2
  · rw [if_pos hlt]
    simp [clustersOk]
  · rw [if_neg hlt]
    exact consolidationLoop_clusters_ok dist embed freshIds now _ _ s [] 0 []
      (by intro i hi; simp at hi)

end TotalReclaw
